import Mathlib

/-!
Verification of the djmkv disc-ripping appliance core against its source.

The definitions below are a shallow embedding of the Python modules
`djmkv/disk_driver/events.py`, `djmkv/disk_driver/sources.py`,
`djmkv/disk_driver/drive.py` and `djmkv/mqtt_wrapper.py`.
Python exceptions are modelled with `Except PyError`; Python `None`
results with `Option`; machine reals produced by true division with `Rat`
(the exact value of the quotient); Python's insertion-ordered `dict`
with association lists updated in place.
-/

set_option autoImplicit false

namespace Djmkv

/-- The Python exception kinds the decoder can raise:
`ValueError` (bad `int()` / `float()` / enum lookup / unpacking),
`ZeroDivisionError` (integer division by zero) and
`TypeError` (constructor called with the wrong number of fields). -/
inductive PyError where
  | valueError : PyError
  | zeroDivisionError : PyError
  | typeError : PyError
deriving DecidableEq, Repr

instance {ε α : Type} [DecidableEq ε] [DecidableEq α] : DecidableEq (Except ε α) :=
  fun x y =>
    match x, y with
    | .ok a, .ok b =>
        if h : a = b then .isTrue (by rw [h])
        else .isFalse (fun hh => h (Except.ok.inj hh))
    | .error a, .error b =>
        if h : a = b then .isTrue (by rw [h])
        else .isFalse (fun hh => h (Except.error.inj hh))
    | .ok _, .error _ => .isFalse (fun hh => Except.noConfusion hh)
    | .error _, .ok _ => .isFalse (fun hh => Except.noConfusion hh)

/-! ### Python string primitives used by `events.py` -/

/-- Python `s.split(sep)` for a one-character separator, on the
character list: `"".split(",") == [""]` and empty pieces are kept. -/
def splitChar (sep : Char) : List Char → List (List Char)
  | [] => [[]]
  | c :: rest =>
      let r := splitChar sep rest
      if c = sep then [] :: r
      else
        match r with
        | [] => [[c]]
        | x :: xs => (c :: x) :: xs

/-- The characters after the first `':'`, if any. -/
def afterColonAux : List Char → Option (List Char)
  | [] => none
  | ':' :: rest => some rest
  | _ :: rest => afterColonAux rest

/-- `s.split(":", maxsplit=1)[-1]`: everything after the first `':'`,
or the whole string when there is no `':'`. -/
def afterColon (s : String) : String :=
  match afterColonAux s.data with
  | some r => String.mk r
  | none => s

/-- `s.split(":", maxsplit=1)[0]`: everything before the first `':'`. -/
def beforeColon (s : String) : String :=
  String.mk (s.data.takeWhile (· ≠ ':'))

/-- Python `s.strip()` on the character list (the protocol only ever
carries the ASCII whitespace Lean's `Char.isWhitespace` covers). -/
def trimChars (cs : List Char) : List Char :=
  ((cs.dropWhile Char.isWhitespace).reverse.dropWhile Char.isWhitespace).reverse

/-- `s.strip('"')`: remove every leading and trailing double-quote character. -/
def stripQuotes (s : String) : String :=
  String.mk (((s.data.dropWhile (· == '"')).reverse.dropWhile (· == '"')).reverse)

/-- `line.rstrip("\r\n")`: remove trailing carriage returns and newlines. -/
def rstripCRLF (s : String) : String :=
  String.mk ((s.data.reverse.dropWhile (fun c => c == '\r' || c == '\n')).reverse)

/-- Python `",".join(strings)`, as a character list. -/
def joinComma : List String → List Char
  | [] => []
  | [s] => s.data
  | s :: rest => s.data ++ ',' :: joinComma rest

/-- Accumulate the value of a decimal digit string; `none` on a non-digit. -/
def decDigitsAux : List Char → Nat → Option Nat
  | [], acc => some acc
  | c :: rest, acc =>
      if c.isDigit then decDigitsAux rest (acc * 10 + (c.toNat - 48)) else none

/-- Parse a non-empty all-digit string as a natural number. -/
def decDigits : List Char → Option Nat
  | [] => none
  | cs => decDigitsAux cs 0

/-- Python `int(s)`: strip surrounding whitespace, allow an optional sign,
then decimal digits.  (Underscore separators and non-ASCII digits, which
CPython also accepts, are not modelled; no protocol field uses them.)
A malformed string raises `ValueError`. -/
def pyInt (s : String) : Except PyError Int :=
  match trimChars s.data with
  | '+' :: rest =>
      match decDigits rest with
      | some n => .ok (Int.ofNat n)
      | none => .error .valueError
  | '-' :: rest =>
      match decDigits rest with
      | some n => .ok (-(Int.ofNat n))
      | none => .error .valueError
  | cs =>
      match decDigits cs with
      | some n => .ok (Int.ofNat n)
      | none => .error .valueError

/-- Parse `digits[.digits]` (at least one digit in total) as a
numerator/denominator pair: `"3.5"` becomes `(35, 10)`. -/
def parseUnsignedParts (cs : List Char) : Option (Nat × Nat) :=
  let intPart := cs.takeWhile Char.isDigit
  let rest := cs.dropWhile Char.isDigit
  match rest with
  | [] =>
      match decDigits intPart with
      | some n => some (n, 1)
      | none => none
  | '.' :: frac =>
      if frac.all Char.isDigit && !(intPart.isEmpty && frac.isEmpty) then
        let ip := (decDigitsAux intPart 0).getD 0
        let fp := (decDigitsAux frac 0).getD 0
        some (ip * 10 ^ frac.length + fp, 10 ^ frac.length)
      else none
  | _ => none

/-- Python `float(s)` restricted to the plain decimal forms the protocol
emits (optional sign, digits, optional fractional part).  Exponents and
the `inf`/`nan` spellings are not modelled.  The exact value the literal
denotes is returned as a signed numerator and positive denominator.
Malformed strings raise `ValueError`. -/
def pyFloat (s : String) : Except PyError (Int × Nat) :=
  match trimChars s.data with
  | '+' :: rest =>
      match parseUnsignedParts rest with
      | some (n, d) => .ok ((n : Int), d)
      | none => .error .valueError
  | '-' :: rest =>
      match parseUnsignedParts rest with
      | some (n, d) => .ok (-(n : Int), d)
      | none => .error .valueError
  | cs =>
      match parseUnsignedParts cs with
      | some (n, d) => .ok ((n : Int), d)
      | none => .error .valueError

/-! ### Events (`events.py`) -/

/-- The coerced value of an info event: `int`, `datetime.timedelta`
(held as its total length in seconds) or the raw unquoted string. -/
inductive Value where
  | intV : Int → Value
  | durV : Rat → Value
  | strV : String → Value
deriving DecidableEq, Repr

/-- The fields shared by `DiscInfoEvent` / `TitleInfoEvent` /
`StreamInfoEvent` (class `InfoEvent`). -/
structure InfoData where
  item_id : Int
  item_name : String
  code : Int
  values : List String
  raw_value : String
  value : Value
deriving DecidableEq, Repr

/-- The closed event variant produced by the decoder and the runner.
Fields that `events.py` stores without conversion stay `String`. -/
inductive Event where
  | unknown (parameters : List String)
  | start (command_number : Nat)
  | stop (command_number : Nat)
  | message (code flags count message format_code : String)
      (parameters : List String)
  | progressCurrent (code operation_id name : String)
  | progressTotal (code operation_id name : String)
  | progressValue (current total limit : Int) (current_fraction total_fraction : Rat)
  | driveScan (index visible enabled flags drive_name disc_name unknown_string : String)
  | titleCount (count : String)
  | discInfo (d : InfoData)
  | titleInfo (title_number : Int) (d : InfoData)
  | streamInfo (title_number stream_number : Int) (d : InfoData)
deriving DecidableEq, Repr

/-- `ItemAttribute(id).name`: the 51 enumeration members of
`ItemAttribute` in `events.py`; `none` models the `ValueError` CPython
raises for an id outside the enumeration. -/
def itemAttributeName (id : Int) : Option String :=
  match id with
  | 0 => some "Unknown"
  | 1 => some "Type"
  | 2 => some "Name"
  | 3 => some "LangCode"
  | 4 => some "LangName"
  | 5 => some "CodecId"
  | 6 => some "CodecShort"
  | 7 => some "CodecLong"
  | 8 => some "ChapterCount"
  | 9 => some "Duration"
  | 10 => some "DiskSize"
  | 11 => some "DiskSizeBytes"
  | 12 => some "StreamTypeExtension"
  | 13 => some "Bitrate"
  | 14 => some "AudioChannelsCount"
  | 15 => some "AngleInfo"
  | 16 => some "SourceFileName"
  | 17 => some "AudioSampleRate"
  | 18 => some "AudioSampleSize"
  | 19 => some "VideoSize"
  | 20 => some "VideoAspectRatio"
  | 21 => some "VideoFrameRate"
  | 22 => some "StreamFlags"
  | 23 => some "DateTime"
  | 24 => some "OriginalTitleId"
  | 25 => some "SegmentsCount"
  | 26 => some "SegmentsMap"
  | 27 => some "OutputFileName"
  | 28 => some "MetadataLanguageCode"
  | 29 => some "MetadataLanguageName"
  | 30 => some "TreeInfo"
  | 31 => some "PanelTitle"
  | 32 => some "VolumeName"
  | 33 => some "OrderWeight"
  | 34 => some "OutputFormat"
  | 35 => some "OutputFormatDescription"
  | 36 => some "SeamlessInfo"
  | 37 => some "PanelText"
  | 38 => some "MkvFlags"
  | 39 => some "MkvFlagsText"
  | 40 => some "AudioChannelLayoutName"
  | 41 => some "OutputCodecShort"
  | 42 => some "OutputConversionType"
  | 43 => some "OutputAudioSampleRate"
  | 44 => some "OutputAudioSampleSize"
  | 45 => some "OutputAudioChannelsCount"
  | 46 => some "OutputAudioChannelLayoutName"
  | 47 => some "OutputAudioChannelLayout"
  | 48 => some "OutputAudioMixDescription"
  | 49 => some "Comment"
  | 50 => some "OffsetSequenceId"
  | _ => none

/-- The attribute ids whose value is coerced with `int(...)` in
`InfoEvent.__init__`: OrderWeight, SegmentsCount, DiskSizeBytes,
AudioChannelsCount, AudioSampleRate, AudioSampleSize, StreamFlags,
ChapterCount. -/
def intCoercedAttrIds : List Int := [33, 25, 11, 14, 17, 18, 22, 8]

/-- `ItemAttribute.Duration.value`. -/
def durationAttrId : Int := 9

/-- The duration branch of `InfoEvent.__init__`:
`hours, minutes, seconds = raw.split(":")` (exactly three pieces or
`ValueError`), then `int`, `int`, `float` and a `timedelta`. -/
def parseDuration (raw : String) : Except PyError Value :=
  match (splitChar ':' raw.data).map String.mk with
  | [hs, ms, ss] => do
      let h ← pyInt hs
      let m ← pyInt ms
      let s ← pyFloat ss
      -- timedelta(hours=h, minutes=m, seconds=n/d), as one exact quotient
      .ok (.durV (Rat.divInt (h * 3600 * (s.2 : Int) + m * 60 * (s.2 : Int) + s.1)
        (s.2 : Int)))
  | _ => .error .valueError

/-- `InfoEvent.__init__(item_id, code, *values)`, error order as in the
source: `int(item_id)`, the `ItemAttribute` lookup, `int(code)`, then the
attribute-keyed value coercion. -/
def InfoEvent_init (item_id code : String) (values : List String) :
    Except PyError InfoData := do
  let iid ← pyInt item_id
  let name ← match itemAttributeName iid with
    | some n => Except.ok n
    | none => Except.error PyError.valueError
  let c ← pyInt code
  let vals := values.map stripQuotes
  let raw := stripQuotes (String.mk (joinComma vals))
  let value ←
    if iid ∈ intCoercedAttrIds then
      (pyInt raw).map Value.intV
    else if iid = durationAttrId then
      parseDuration raw
    else
      Except.ok (Value.strV raw)
  .ok ⟨iid, name, c, vals, raw, value⟩

/-- `MessageEvent(*params)`: five required fields, the rest varargs;
a wrong arity is a `TypeError` in CPython. -/
def MessageEvent_init (params : List String) : Except PyError Event :=
  match params with
  | code :: flags :: count :: message :: format_code :: parameters =>
      .ok (.message code flags count (stripQuotes message) (stripQuotes format_code)
        (parameters.map stripQuotes))
  | _ => .error .typeError

/-- `ProgressCurrentEvent(code, operation_id, name)`. -/
def ProgressCurrentEvent_init (params : List String) : Except PyError Event :=
  match params with
  | [code, operation_id, name] =>
      .ok (.progressCurrent code operation_id (stripQuotes name))
  | _ => .error .typeError

/-- `ProgressTotalEvent(code, operation_id, name)`. -/
def ProgressTotalEvent_init (params : List String) : Except PyError Event :=
  match params with
  | [code, operation_id, name] =>
      .ok (.progressTotal code operation_id (stripQuotes name))
  | _ => .error .typeError

/-- `ProgressValueEvent(current, total, limit)`: three `int(...)`
conversions in order, then the two true divisions by `limit` — CPython
raises `ZeroDivisionError` when `limit` is `0`. -/
def ProgressValueEvent_init (params : List String) : Except PyError Event :=
  match params with
  | [cs, ts, ls] => do
      let current ← pyInt cs
      let total ← pyInt ts
      let limit ← pyInt ls
      if limit = 0 then
        Except.error PyError.zeroDivisionError
      else
        Except.ok (.progressValue current total limit
          (Rat.divInt current limit) (Rat.divInt total limit))
  | _ => .error .typeError

/-- `DriveScanEvent(index, visible, enabled, flags, drive_name, disc_name,
unknown_string)`: all seven fields stored raw. -/
def DriveScanEvent_init (params : List String) : Except PyError Event :=
  match params with
  | [index, visible, enabled, flags, drive_name, disc_name, unknown_string] =>
      .ok (.driveScan index visible enabled flags drive_name disc_name unknown_string)
  | _ => .error .typeError

/-- `TitleCountEvent(count)`: the count is stored raw. -/
def TitleCountEvent_init (params : List String) : Except PyError Event :=
  match params with
  | [count] => .ok (.titleCount count)
  | _ => .error .typeError

/-- `DiscInfoEvent(item_id, code, *values)`. -/
def DiscInfoEvent_init (params : List String) : Except PyError Event :=
  match params with
  | item_id :: code :: values =>
      (InfoEvent_init item_id code values).map Event.discInfo
  | _ => .error .typeError

/-- `TitleInfoEvent(title_number, item_id, code, *values)`: the
`InfoEvent` body runs first (`super().__init__`), only then
`int(title_number)`. -/
def TitleInfoEvent_init (params : List String) : Except PyError Event :=
  match params with
  | title_number :: item_id :: code :: values => do
      let d ← InfoEvent_init item_id code values
      let t ← pyInt title_number
      .ok (.titleInfo t d)
  | _ => .error .typeError

/-- `StreamInfoEvent(title_number, stream_number, item_id, code, *values)`:
`InfoEvent` body first, then `int(title_number)`, then
`int(stream_number)`. -/
def StreamInfoEvent_init (params : List String) : Except PyError Event :=
  match params with
  | title_number :: stream_number :: item_id :: code :: values => do
      let d ← InfoEvent_init item_id code values
      let t ← pyInt title_number
      let s ← pyInt stream_number
      .ok (.streamInfo t s d)
  | _ => .error .typeError

/-- `BaseEvent.parse`: drop everything up to the first `':'`, split the
rest on `','`, hand the pieces to the event constructor. -/
def eventParams (raw_string : String) : List String :=
  (splitChar ',' (afterColon raw_string).data).map String.mk

/-- The `message_type` local of `get_event`:
`raw_string.split(":", maxsplit=1)[0].upper().strip()`. -/
def messageTypeOf (raw_string : String) : String :=
  String.mk (trimChars ((beforeColon raw_string).data.map Char.toUpper))

/-- `events.get_event(raw_string)`: dispatch on the upper-cased,
whitespace-stripped text before the first colon.  `.ok none` models the
Python `None` return for blank lines; `.error` models an exception
escaping `get_event` (the function has no handler of its own). -/
def get_event (raw_string : String) : Except PyError (Option Event) :=
  if messageTypeOf raw_string = "MSG" then
    (MessageEvent_init (eventParams raw_string)).map some
  else if messageTypeOf raw_string = "PRGC" then
    (ProgressCurrentEvent_init (eventParams raw_string)).map some
  else if messageTypeOf raw_string = "PRGT" then
    (ProgressTotalEvent_init (eventParams raw_string)).map some
  else if messageTypeOf raw_string = "PRGV" then
    (ProgressValueEvent_init (eventParams raw_string)).map some
  else if messageTypeOf raw_string = "DRV" then
    (DriveScanEvent_init (eventParams raw_string)).map some
  else if messageTypeOf raw_string = "TCOUT" then
    (TitleCountEvent_init (eventParams raw_string)).map some
  else if messageTypeOf raw_string = "CINFO" then
    (DiscInfoEvent_init (eventParams raw_string)).map some
  else if messageTypeOf raw_string = "TINFO" then
    (TitleInfoEvent_init (eventParams raw_string)).map some
  else if messageTypeOf raw_string = "SINFO" then
    (StreamInfoEvent_init (eventParams raw_string)).map some
  else if (trimChars raw_string.data).length ≤ 0 then
    .ok none
  else
    .ok (some (.unknown (eventParams raw_string)))

/-! ### Command runner (`sources.py`) -/

/-- The decode step `run_command` applies to each line it reads:
`line.rstrip("\r\n")` followed by `events.get_event(...)`. -/
def decodeLine (line : String) : Except PyError (Option Event) :=
  get_event (rstripCRLF line)

/-- Errors that abort one `Source.run_command` call: the
`create_subprocess_exec` spawn failure, or a decoder exception that the
loop body does not catch (its `except` clause only handles
`TimeoutError`). -/
inductive RunError where
  | spawnFailure : RunError
  | decodeError : PyError → RunError
deriving DecidableEq, Repr

/-- The per-device `Source` state the embedding tracks:
`command_counter` and the items pushed onto `event_queue`.  The queue is
the list of everything put on it, in order; its elements are
`Option Event` because the post-exit drain loop can push Python `None`. -/
structure SourceState where
  command_counter : Nat
  event_queue : List (Option Event)
deriving DecidableEq, Repr

/-- Outcome of one line-processing loop: an optional escaping exception
together with the queue contents and the run's local `history` at that
point (on an exception the queue keeps what was already pushed). -/
structure LoopOut where
  err : Option PyError
  queue : List (Option Event)
  history : List (Option Event)
deriving DecidableEq, Repr

/-- The pre-exit read loop of `run_command`: for each line, decode it;
a decoder exception escapes; a `None` result is skipped (`continue`);
an event is pushed to the queue and appended to the history. -/
def preLoop : List String → List (Option Event) → List (Option Event) → LoopOut
  | [], q, h => ⟨none, q, h⟩
  | l :: ls, q, h =>
      match decodeLine l with
      | .error e => ⟨some e, q, h⟩
      | .ok none => preLoop ls q h
      | .ok (some ev) => preLoop ls (q ++ [some ev]) (h ++ [some ev])

/-- The post-exit drain loop of `run_command`: for each line of the
remaining buffered stdout, decode it and push/append the result
unconditionally — including the `None` no-event result. -/
def postLoop : List String → List (Option Event) → List (Option Event) → LoopOut
  | [], q, h => ⟨none, q, h⟩
  | l :: ls, q, h =>
      match decodeLine l with
      | .error e => ⟨some e, q, h⟩
      | .ok item => postLoop ls (q ++ [item]) (h ++ [item])

/-- What the external tool run yields to `run_command`: a spawn failure,
or the lines read before the process exited together with the lines of
the remaining buffered output drained afterwards. -/
abbrev SpawnResult := Except Unit (List String × List String)

/-- `Source.run_command`, state-passing form.  Inside the device lock:
read the counter, increment it, push/record `StartEvent`, spawn; on
spawn failure the exception propagates with `Start` already queued and
the counter already bumped.  Then the pre-exit loop, the drain loop and
finally `StopEvent`; a decoder exception at any point aborts the call,
keeping whatever was already queued. -/
def run_command (st : SourceState) (spawn : SpawnResult) :
    Except RunError (Nat × List (Option Event)) × SourceState :=
  let n := st.command_counter
  let q0 := st.event_queue ++ [some (.start n)]
  let h0 : List (Option Event) := [some (.start n)]
  match spawn with
  | .error _ => (.error .spawnFailure, ⟨n + 1, q0⟩)
  | .ok (preLines, drainLines) =>
      match preLoop preLines q0 h0 with
      | ⟨some e, q, _⟩ => (.error (.decodeError e), ⟨n + 1, q⟩)
      | ⟨none, q1, h1⟩ =>
          match postLoop drainLines q1 h1 with
          | ⟨some e, q, _⟩ => (.error (.decodeError e), ⟨n + 1, q⟩)
          | ⟨none, q2, h2⟩ =>
              (.ok (n, h2 ++ [some (.stop n)]), ⟨n + 1, q2 ++ [some (.stop n)]⟩)

/-! ### History aggregation (`Source.history_to_dict`) -/

/-- A Python `dict` as an insertion-ordered association list. -/
abbrev PyDict (α β : Type) := List (α × β)

/-- `d[k] = v`: replace the binding in place if the key is present,
otherwise append it. -/
def dictSet {α β : Type} [DecidableEq α] : PyDict α β → α → β → PyDict α β
  | [], k, v => [(k, v)]
  | (k', v') :: rest, k, v =>
      if k' = k then (k, v) :: rest else (k', v') :: dictSet rest k v

/-- `d.get(k)` / `d[k]`. -/
def dictGet {α β : Type} [DecidableEq α] : PyDict α β → α → Option β
  | [], _ => none
  | (k', v') :: rest, k => if k' = k then some v' else dictGet rest k

/-- `d.get(k, default)`. -/
def dictGetD {α β : Type} [DecidableEq α] (d : PyDict α β) (k : α) (dflt : β) : β :=
  (dictGet d k).getD dflt

/-- Attribute-name → value mapping of one level of the summary. -/
abbrev AttrDict := PyDict String Value

/-- One title's accumulator: its own attributes and the `"Streams"`
sub-dict keyed by stream number.  (No `ItemAttribute` member is named
`Titles` or `Streams`, so keeping the nested dicts as separate fields is
faithful to the single Python dict.) -/
structure TitleAcc where
  attrs : AttrDict
  streams : PyDict Int AttrDict
deriving DecidableEq, Repr

/-- The whole accumulator: top-level attributes plus the `"Titles"`
sub-dict keyed by title number. -/
structure InfoAcc where
  attrs : AttrDict
  titles : PyDict Int TitleAcc
deriving DecidableEq, Repr

/-- One iteration of the `for event in history` loop of
`history_to_dict`. -/
def historyStep (acc : InfoAcc) (e : Option Event) : InfoAcc :=
  match e with
  | some (.discInfo d) => { acc with attrs := dictSet acc.attrs d.item_name d.value }
  | some (.titleInfo t d) =>
      let title := dictGetD acc.titles t ⟨[], []⟩
      let title := { title with attrs := dictSet title.attrs d.item_name d.value }
      { acc with titles := dictSet acc.titles t title }
  | some (.streamInfo t s d) =>
      let title := dictGetD acc.titles t ⟨[], []⟩
      let stream := dictGetD title.streams s []
      let stream := dictSet stream d.item_name d.value
      let title := { title with streams := dictSet title.streams s stream }
      { acc with titles := dictSet acc.titles t title }
  | _ => acc

/-- The aggregation phase of `history_to_dict`. -/
def aggregate (history : List (Option Event)) : InfoAcc :=
  history.foldl historyStep ⟨[], []⟩

/-- `sorted(title["Streams"].keys())`. -/
def streamKeys (ta : TitleAcc) : List Int :=
  List.insertionSort (· ≤ ·) (ta.streams.map Prod.fst)

/-- `sorted(info["Titles"].keys())`. -/
def titleKeys (acc : InfoAcc) : List Int :=
  List.insertionSort (· ≤ ·) (acc.titles.map Prod.fst)

/-- One finished title of the summary: attributes plus the streams list
in ascending stream-number order. -/
structure TitleOut where
  attrs : AttrDict
  streams : List AttrDict
deriving DecidableEq, Repr

/-- The finished summary `history_to_dict` returns: top-level attributes
plus the titles list in ascending title-number order. -/
structure InfoOut where
  attrs : AttrDict
  titles : List TitleOut
deriving DecidableEq, Repr

/-- The conversion phase for one title. -/
def finalizeTitle (ta : TitleAcc) : TitleOut :=
  ⟨ta.attrs, (streamKeys ta).map fun s => dictGetD ta.streams s []⟩

/-- `Source.history_to_dict(history)`. -/
def history_to_dict (history : List (Option Event)) : InfoOut :=
  let acc := aggregate history
  ⟨acc.attrs, (titleKeys acc).map fun t => finalizeTitle (dictGetD acc.titles t ⟨[], []⟩)⟩

/-! ### Drive hardware calls (`drive.py`) -/

/-- What one `fcntl.ioctl` attempt reports: success with a result,
`OSError` with `errno == EBUSY`, or `OSError` with a different errno
(identified by that errno). -/
inductive IoAttempt where
  | ok : Int → IoAttempt
  | busy : IoAttempt
  | err : Int → IoAttempt
deriving DecidableEq, Repr

/-- The fixed delay `Drive.run_ioctl` sleeps between busy retries
(`await asyncio.sleep(0.1)`), in seconds. -/
def IOCTL_RETRY_DELAY : Rat := 1 / 10

/-- The retry loop of `Drive.run_ioctl` over a given sequence of ioctl
outcomes.  Returns the loop's outcome (`none` while every attempt so far
was busy and the loop is still retrying) together with the number of
backoff sleeps taken.  A busy attempt sleeps and retries; success breaks
with the result; any other `OSError` is re-raised. -/
def run_ioctl_loop : List IoAttempt → Nat → Option (Except Int Int) × Nat
  | [], sleeps => (none, sleeps)
  | .busy :: rest, sleeps => run_ioctl_loop rest (sleeps + 1)
  | .ok r :: _, sleeps => (some (.ok r), sleeps)
  | .err e :: _, sleeps => (some (.error e), sleeps)

/-- `Drive.run_ioctl(request, arg)`: under the device lock, open the
device and run the retry loop.  The request code and argument do not
influence the retry policy; they are kept to mirror the call sites. -/
def run_ioctl (request : Int) (arg : Int) (attempts : List IoAttempt) :
    Option (Except Int Int) × Nat :=
  let _ := request
  let _ := arg
  run_ioctl_loop attempts 0

/-- `cdrom.py` fallback constants used by the hardware calls. -/
def CDROMEJECT : Int := 21257
def CDROMCLOSETRAY : Int := 21273
def CDROM_DRIVE_STATUS : Int := 21286
def CDROM_LOCKDOOR : Int := 21289

/-- `Drive.get_status()`. -/
def get_status (attempts : List IoAttempt) : Option (Except Int Int) × Nat :=
  run_ioctl CDROM_DRIVE_STATUS 0 attempts

/-- The eject half of `Drive.open_tray()`. -/
def eject (attempts : List IoAttempt) : Option (Except Int Int) × Nat :=
  run_ioctl CDROMEJECT 0 attempts

/-- `Drive.close_tray()`. -/
def close_tray (attempts : List IoAttempt) : Option (Except Int Int) × Nat :=
  run_ioctl CDROMCLOSETRAY 0 attempts

/-- `Drive.set_door_lock(locked)`. -/
def set_door_lock (locked : Bool) (attempts : List IoAttempt) :
    Option (Except Int Int) × Nat :=
  run_ioctl CDROM_LOCKDOOR (if locked then 1 else 0) attempts

/-- The argument of `Drive.is_in_state` / `Drive.wait_for_state`: either
a bare status integer or a set of status integers. -/
inductive StatesArg where
  | single : Int → StatesArg
  | set : Finset Int → StatesArg

/-- `Drive.is_in_state(states, invert)` applied to one sampled status:
a non-set argument is first wrapped into a singleton set, then
`(status in states) ^ invert`. -/
def is_in_state (status : Int) (states : StatesArg) (invert : Bool) : Bool :=
  let s : Finset Int :=
    match states with
    | .single n => {n}
    | .set s => s
  xor (decide (status ∈ s)) invert

/-! ### Outbound publisher (`mqtt_wrapper.py`) -/

/-- The worker state of `MQTTWrapper.send_loop`: the in-flight message,
the queued messages behind it, the live retry counter, and ghost logs of
deliveries, drops and backoff sleeps for the specification. -/
structure PubState (μ : Type) where
  current : μ
  queue : List μ
  remaining : Int
  delivered : List μ
  dropped : List μ
  sleeps : Nat
deriving DecidableEq, Repr

/-- The prologue of `send_loop`: block for the first queued message and
set `remaining_retries = retries`; `none` when the queue is empty (the
worker stays blocked in `get()`). -/
def sendInit {μ : Type} (retries : Int) : List μ → Option (PubState μ)
  | [] => none
  | m :: rest => some ⟨m, rest, retries, [], [], 0⟩

/-- One delivery attempt of `send_loop`.  `ok = true`: the publish
succeeds, the retry budget resets to `retries`, and the worker blocks
for the next message (second component `false` when the queue is empty).
`ok = false` (`aiomqtt.MqttError`): decrement the counter; if it is now
`≤ 0`, abandon the in-flight message and take the next one — the counter
is left as it is; then sleep `retry_delay` and reconnect. -/
def sendStep {μ : Type} (retries : Int) (st : PubState μ) (ok : Bool) :
    PubState μ × Bool :=
  if ok then
    match st.queue with
    | [] => ({ st with delivered := st.delivered ++ [st.current], remaining := retries },
        false)
    | m :: rest =>
        ({ st with
            delivered := st.delivered ++ [st.current]
            remaining := retries
            current := m
            queue := rest }, true)
  else
    let r := st.remaining - 1
    if r ≤ 0 then
      match st.queue with
      | [] =>
          -- the worker blocks inside `get()` here, before reaching the sleep
          ({ st with remaining := r, dropped := st.dropped ++ [st.current] }, false)
      | m :: rest =>
          ({ st with
              remaining := r
              dropped := st.dropped ++ [st.current]
              current := m
              queue := rest
              sleeps := st.sleeps + 1 }, true)
    else
      ({ st with remaining := r, sleeps := st.sleeps + 1 }, true)

/-- `send_loop` run against a finite oracle of attempt outcomes; it
stops early when the worker blocks on an empty queue. -/
def sendRun {μ : Type} (retries : Int) : List Bool → PubState μ → PubState μ
  | [], st => st
  | ok :: rest, st =>
      match sendStep retries st ok with
      | (st', true) => sendRun retries rest st'
      | (st', false) => st'

/-- What every event built by the decoder satisfies: it is not a
runner-made Start/Stop, and if it is a ProgressValue then its fractions
are the exact quotients by a nonzero limit. -/
def GoodEvent (ev : Event) : Prop :=
  (∀ m, ev ≠ .start m) ∧ (∀ m, ev ≠ .stop m) ∧
  (∀ c t l cf tf, ev = .progressValue c t l cf tf →
    l ≠ 0 ∧ cf = Rat.divInt c l ∧ tf = Rat.divInt t l)

/-- A top-level attribute is present in the accumulator. -/
def HasTop (name : String) (acc : InfoAcc) : Prop :=
  ∃ v, dictGet acc.attrs name = some v

/-- An attribute is present under title `t` in the accumulator. -/
def HasTitle (t : Int) (name : String) (acc : InfoAcc) : Prop :=
  ∃ ta v, dictGet acc.titles t = some ta ∧ dictGet ta.attrs name = some v

/-- An attribute is present under stream `s` of title `t`. -/
def HasStream (t s : Int) (name : String) (acc : InfoAcc) : Prop :=
  ∃ ta sd v, dictGet acc.titles t = some ta ∧ dictGet ta.streams s = some sd
    ∧ dictGet sd name = some v

/-- The three events of the concrete aggregation example: a
DiscInfo(Name), a TitleInfo(title 0, Name) and a
StreamInfo(title 0, stream 0, Name). -/
def discNameEv : Option Event := some (.discInfo ⟨2, "Name", 0, ["d"], "d", .strV "d"⟩)

/-- See `discNameEv`. -/
def titleNameEv : Option Event := some (.titleInfo 0 ⟨2, "Name", 0, ["t"], "t", .strV "t"⟩)

/-- See `discNameEv`. -/
def streamNameEv : Option Event := some (.streamInfo 0 0 ⟨2, "Name", 0, ["s"], "s", .strV "s"⟩)

/-- The summary the example history aggregates to. -/
def smallInfoOut : InfoOut :=
  ⟨[("Name", .strV "d")], [⟨[("Name", .strV "t")], [[("Name", .strV "s")]]⟩]⟩

/-! ### General helper lemmas -/

/-- Inversion for a successful `Except` bind. -/
theorem exceptBind_ok {ε α β : Type} {x : Except ε α} {f : α → Except ε β} {b : β}
    (h : x >>= f = .ok b) : ∃ a, x = .ok a ∧ f a = .ok b := by
  cases x <;> simp_all [Bind.bind, Except.bind]

/-- Inversion for a successful `Except.map`. -/
theorem exceptMap_ok {ε α β : Type} {x : Except ε α} {f : α → β} {b : β}
    (h : x.map f = .ok b) : ∃ a, x = .ok a ∧ f a = b := by
  cases x <;> simp_all [Except.map]

theorem MessageEvent_init_good (ps : List String) (ev : Event)
    (h : MessageEvent_init ps = .ok ev) : GoodEvent ev := by
  unfold MessageEvent_init at h
  split at h
  · cases h
    exact ⟨fun m => by simp, fun m => by simp, fun c t l cf tf hh => by simp at hh⟩
  · cases h

theorem ProgressCurrentEvent_init_good (ps : List String) (ev : Event)
    (h : ProgressCurrentEvent_init ps = .ok ev) : GoodEvent ev := by
  unfold ProgressCurrentEvent_init at h
  split at h
  · cases h
    exact ⟨fun m => by simp, fun m => by simp, fun c t l cf tf hh => by simp at hh⟩
  · cases h

theorem ProgressTotalEvent_init_good (ps : List String) (ev : Event)
    (h : ProgressTotalEvent_init ps = .ok ev) : GoodEvent ev := by
  unfold ProgressTotalEvent_init at h
  split at h
  · cases h
    exact ⟨fun m => by simp, fun m => by simp, fun c t l cf tf hh => by simp at hh⟩
  · cases h

theorem ProgressValueEvent_init_good (ps : List String) (ev : Event)
    (h : ProgressValueEvent_init ps = .ok ev) : GoodEvent ev := by
  unfold ProgressValueEvent_init at h
  split at h
  · obtain ⟨c, hc, h⟩ := exceptBind_ok h
    obtain ⟨t, ht, h⟩ := exceptBind_ok h
    obtain ⟨l, hl, h⟩ := exceptBind_ok h
    by_cases h0 : l = 0
    · simp [h0] at h
    · simp only [if_neg h0] at h
      cases h
      refine ⟨fun m => by simp, fun m => by simp, fun c' t' l' cf' tf' hh => ?_⟩
      rw [Event.progressValue.injEq] at hh
      obtain ⟨e1, e2, e3, e4, e5⟩ := hh
      subst e1; subst e2; subst e3
      exact ⟨h0, e4.symm, e5.symm⟩
  · cases h

theorem DriveScanEvent_init_good (ps : List String) (ev : Event)
    (h : DriveScanEvent_init ps = .ok ev) : GoodEvent ev := by
  unfold DriveScanEvent_init at h
  split at h
  · cases h
    exact ⟨fun m => by simp, fun m => by simp, fun c t l cf tf hh => by simp at hh⟩
  · cases h

theorem TitleCountEvent_init_good (ps : List String) (ev : Event)
    (h : TitleCountEvent_init ps = .ok ev) : GoodEvent ev := by
  unfold TitleCountEvent_init at h
  split at h
  · cases h
    exact ⟨fun m => by simp, fun m => by simp, fun c t l cf tf hh => by simp at hh⟩
  · cases h

theorem DiscInfoEvent_init_good (ps : List String) (ev : Event)
    (h : DiscInfoEvent_init ps = .ok ev) : GoodEvent ev := by
  unfold DiscInfoEvent_init at h
  split at h
  · obtain ⟨d, hd, hmap⟩ := exceptMap_ok h
    cases hmap
    exact ⟨fun m => by simp, fun m => by simp, fun c t l cf tf hh => by simp at hh⟩
  · cases h

theorem TitleInfoEvent_init_good (ps : List String) (ev : Event)
    (h : TitleInfoEvent_init ps = .ok ev) : GoodEvent ev := by
  unfold TitleInfoEvent_init at h
  split at h
  · obtain ⟨d, hd, h⟩ := exceptBind_ok h
    obtain ⟨t, ht, h⟩ := exceptBind_ok h
    cases h
    exact ⟨fun m => by simp, fun m => by simp, fun c t l cf tf hh => by simp at hh⟩
  · cases h

theorem StreamInfoEvent_init_good (ps : List String) (ev : Event)
    (h : StreamInfoEvent_init ps = .ok ev) : GoodEvent ev := by
  unfold StreamInfoEvent_init at h
  split at h
  · obtain ⟨d, hd, h⟩ := exceptBind_ok h
    obtain ⟨t, ht, h⟩ := exceptBind_ok h
    obtain ⟨s', hs, h⟩ := exceptBind_ok h
    cases h
    exact ⟨fun m => by simp, fun m => by simp, fun c t l cf tf hh => by simp at hh⟩
  · cases h

/-- Every event `get_event` returns is `GoodEvent`: the decoder never
fabricates Start/Stop events and every ProgressValue it emits carries the
exact fractions of a nonzero limit. -/
theorem get_event_good (s : String) (ev : Event)
    (h : get_event s = .ok (some ev)) : GoodEvent ev := by
  unfold get_event at h
  split at h
  iterate 10 all_goals try split at h
  all_goals first
    | (obtain ⟨a, ha, hmap⟩ := exceptMap_ok h
       cases hmap
       first
         | exact MessageEvent_init_good _ _ ha
         | exact ProgressCurrentEvent_init_good _ _ ha
         | exact ProgressTotalEvent_init_good _ _ ha
         | exact ProgressValueEvent_init_good _ _ ha
         | exact DriveScanEvent_init_good _ _ ha
         | exact TitleCountEvent_init_good _ _ ha
         | exact DiscInfoEvent_init_good _ _ ha
         | exact TitleInfoEvent_init_good _ _ ha
         | exact StreamInfoEvent_init_good _ _ ha)
    | (simp at h
       done)
    | (cases h
       exact ⟨fun m => by simp, fun m => by simp, fun c t l cf tf hh => by simp at hh⟩)

/-! ### Claim theorems -/

/-- Claim C2, counterexample.  The claim says `decode("PRGV:1,2,0")` yields a
defined `DecodeError` without crashing with a division error.  In the code,
`ProgressValueEvent.__init__` divides by the zero limit and the resulting
`ZeroDivisionError` escapes `get_event` — the decode does crash with a
division error. -/
theorem claim2_counterexample :
    get_event "PRGV:1,2,0" = .error .zeroDivisionError := by decide

/-- Claim C2, amended.  For every PRGV line whose three fields parse as
integers with the third (limit) equal to `0`, the event constructor raises
`ZeroDivisionError` (an exception propagating to the caller, not a
contained decode error), and no ProgressValue event is emitted; no NaN
fraction is produced. -/
theorem claim2_theorem (cs ts ls : String) (a b : Int)
    (hc : pyInt cs = .ok a) (ht : pyInt ts = .ok b) (hl : pyInt ls = .ok 0) :
    ProgressValueEvent_init [cs, ts, ls] = .error .zeroDivisionError := by
  simp [ProgressValueEvent_init, hc, ht, hl, Bind.bind, Except.bind]

/-- Witness for `claim2_theorem` at the spec's own example `PRGV:1,2,0`. -/
theorem claim2_witness :
    pyInt "1" = .ok 1 ∧ pyInt "2" = .ok 2 ∧ pyInt "0" = .ok 0 ∧
    ProgressValueEvent_init ["1", "2", "0"] = .error .zeroDivisionError :=
  ⟨by decide, by decide, by decide,
    claim2_theorem "1" "2" "0" 1 2 (by decide) (by decide) (by decide)⟩

/-- Claim C6.  `decode("MSG:1,0,0,\"Hello world\",0")` is the Message event
with code `1`, flags `0`, count `0`, text `Hello world` (quotes stripped)
and format code `0`.  `MessageEvent.__init__` stores the code/flags/count
fields as the raw protocol strings, so the embedding compares those. -/
theorem claim6_theorem :
    get_event "MSG:1,0,0,\"Hello world\",0"
      = .ok (some (.message "1" "0" "0" "Hello world" "0" [])) := by decide

/-- Claim C10.  `Drive.is_in_state` wraps a bare status integer into a
singleton set before the membership test, so calling it with the integer
`n` behaves exactly like calling it with the set `{n}`, for every sampled
status and invert flag. -/
theorem claim10_theorem (status n : Int) (invert : Bool) :
    is_in_state status (.single n) invert = is_in_state status (.set {n}) invert := rfl

/-- Busy attempts are consumed one sleep at a time. -/
theorem run_ioctl_loop_busy (k : Nat) :
    ∀ (rest : List IoAttempt) (s : Nat),
      run_ioctl_loop (List.replicate k .busy ++ rest) s = run_ioctl_loop rest (s + k) := by
  induction k with
  | zero => intro rest s; simp
  | succ n ih =>
      intro rest s
      have h : s + (n + 1) = (s + 1) + n := by omega
      rw [List.replicate_succ, List.cons_append, h]
      show run_ioctl_loop (List.replicate n IoAttempt.busy ++ rest) (s + 1) = _
      exact ih rest (s + 1)

/-- Claim C8.  `Drive.run_ioctl` retries a device-busy `OSError`
indefinitely, sleeping the fixed `0.1 s` delay once per busy attempt
(the sleep counter in the result: total backoff `= k * IOCTL_RETRY_DELAY`):
after any number `k` of busy attempts a success returns its result and a
non-busy error is re-raised to the caller, each having slept exactly `k`
times; while only busy attempts have occurred the loop is still retrying.
The status query, eject, close-tray and door-lock calls all delegate to
this one retry loop. -/
theorem claim8_theorem :
    (∀ (k : Nat) (r : Int),
        run_ioctl_loop (List.replicate k .busy ++ [.ok r]) 0 = (some (.ok r), k))
  ∧ (∀ (k : Nat) (e : Int),
        run_ioctl_loop (List.replicate k .busy ++ [.err e]) 0 = (some (.error e), k))
  ∧ (∀ (k : Nat), run_ioctl_loop (List.replicate k .busy) 0 = (none, k))
  ∧ (∀ attempts, get_status attempts = run_ioctl_loop attempts 0
      ∧ eject attempts = run_ioctl_loop attempts 0
      ∧ close_tray attempts = run_ioctl_loop attempts 0
      ∧ ∀ b, set_door_lock b attempts = run_ioctl_loop attempts 0) := by
  refine ⟨?_, ?_, ?_, ?_⟩
  · intro k r; rw [run_ioctl_loop_busy]; simp [run_ioctl_loop]
  · intro k e; rw [run_ioctl_loop_busy]; simp [run_ioctl_loop]
  · intro k
    have := run_ioctl_loop_busy k [] 0
    simpa [run_ioctl_loop] using this
  · intro attempts
    exact ⟨rfl, rfl, rfl, fun b => rfl⟩


/-- Claim C5, counterexample.  The claim requires
`0 ≤ current ≤ limit` for every ProgressValue event the decoder emits
without error; but `decode("PRGV:5,6,2")` succeeds and emits an event
with `current = 5 > 2 = limit` — the bounds are not checked. -/
theorem claim5_counterexample :
    get_event "PRGV:5,6,2"
      = .ok (some (.progressValue 5 6 2 (Rat.divInt 5 2) (Rat.divInt 6 2)))
    ∧ ¬((5 : Int) ≤ 2) := ⟨by decide, by decide⟩

/-- Claim C5, amended.  For every ProgressValue event the decoder emits
without raising, the limit is nonzero and it is the fixed-point scale of
both fractions: `current_fraction = current/limit` and
`total_fraction = total/limit`.  The bounds `0 ≤ current,total ≤ limit`
are not enforced by the decoder. -/
theorem claim5_theorem (line : String) (c t l : Int) (cf tf : Rat)
    (h : get_event line = .ok (some (.progressValue c t l cf tf))) :
    l ≠ 0 ∧ cf = (c : Rat) / (l : Rat) ∧ tf = (t : Rat) / (l : Rat) := by
  obtain ⟨-, -, hpv⟩ := get_event_good line _ h
  obtain ⟨h0, hcf, htf⟩ := hpv c t l cf tf rfl
  exact ⟨h0, by rw [hcf, Rat.divInt_eq_div], by rw [htf, Rat.divInt_eq_div]⟩

/-- Witness for `claim5_theorem` at the spec's example
`PRGV:500,1000,2000`. -/
theorem claim5_witness :
    get_event "PRGV:500,1000,2000"
        = .ok (some (.progressValue 500 1000 2000 (Rat.divInt 1 4) (Rat.divInt 1 2)))
    ∧ ((2000 : Int) ≠ 0
        ∧ Rat.divInt 1 4 = ((500 : Int) : Rat) / ((2000 : Int) : Rat)
        ∧ Rat.divInt 1 2 = ((1000 : Int) : Rat) / ((2000 : Int) : Rat)) :=
  ⟨by decide,
    claim5_theorem "PRGV:500,1000,2000" 500 1000 2000 (Rat.divInt 1 4) (Rat.divInt 1 2)
      (by decide)⟩


theorem preLoop_err_head (l : String) (rest : List String)
    (q h : List (Option Event)) (e : PyError) (hl : decodeLine l = .error e) :
    preLoop (l :: rest) q h = ⟨some e, q, h⟩ := by
  unfold preLoop; rw [hl]

theorem preLoop_append_ok (xs : List String) :
    ∀ (ys : List String) (q h : List (Option Event)),
      (preLoop xs q h).err = none →
      preLoop (xs ++ ys) q h = preLoop ys (preLoop xs q h).queue (preLoop xs q h).history := by
  induction xs with
  | nil => intro ys q h _; simp [preLoop]
  | cons l ls ih =>
      intro ys q h hok
      cases hd : decodeLine l with
      | error e =>
          rw [preLoop_err_head l ls q h e hd] at hok
          simp at hok
      | ok item =>
          cases item with
          | none =>
              have h1 : preLoop (l :: ls) q h = preLoop ls q h := by
                simp only [preLoop, hd]
              have h2 : preLoop ((l :: ls) ++ ys) q h = preLoop (ls ++ ys) q h := by
                simp only [List.cons_append, preLoop, hd, List.append_eq]
              rw [h1] at hok ⊢
              rw [h2]
              exact ih ys q h hok
          | some ev =>
              have h1 : preLoop (l :: ls) q h
                  = preLoop ls (q ++ [some ev]) (h ++ [some ev]) := by
                simp only [preLoop, hd]
              have h2 : preLoop ((l :: ls) ++ ys) q h
                  = preLoop (ls ++ ys) (q ++ [some ev]) (h ++ [some ev]) := by
                simp only [List.cons_append, preLoop, hd, List.append_eq]
              rw [h1] at hok ⊢
              rw [h2]
              exact ih ys (q ++ [some ev]) (h ++ [some ev]) hok


theorem InfoEvent_init_unknown_attr (item_id code : String) (values : List String)
    (iid : Int) (h1 : pyInt item_id = .ok iid) (h2 : itemAttributeName iid = none) :
    InfoEvent_init item_id code values = .error .valueError := by
  simp [InfoEvent_init, h1, h2, Bind.bind, Except.bind]

/-- Claim C1, amended.  An info line (CINFO/TINFO/SINFO) whose attribute
id is outside the `ItemAttribute` enumeration (or whose numeric/duration
field is malformed) raises `ValueError`, and the exception propagates
out of `run_command` — only `TimeoutError` is caught there — aborting
the run: the bad line is not skipped and no subsequent line is decoded.
Part one: an out-of-enumeration attribute id makes `InfoEvent.__init__`
raise `ValueError`.  Part two: a line whose decode raises aborts
`run_command` with that exception no matter what lines follow. -/
theorem claim1_theorem :
    (∀ (item_id code : String) (values : List String) (iid : Int),
        pyInt item_id = .ok iid → itemAttributeName iid = none →
        InfoEvent_init item_id code values = .error .valueError)
  ∧ (∀ (st : SourceState) (pre rest drain : List String) (l : String) (e : PyError),
        (preLoop pre (st.event_queue ++ [some (.start st.command_counter)])
            [some (.start st.command_counter)]).err = none →
        decodeLine l = .error e →
        (run_command st (.ok (pre ++ l :: rest, drain))).1 = .error (.decodeError e)) := by
  constructor
  · exact InfoEvent_init_unknown_attr
  · intro st pre rest drain l e hpre hl
    have h1 : preLoop (pre ++ l :: rest)
          (st.event_queue ++ [some (.start st.command_counter)])
          [some (.start st.command_counter)]
        = ⟨some e,
            (preLoop pre (st.event_queue ++ [some (.start st.command_counter)])
              [some (.start st.command_counter)]).queue,
            (preLoop pre (st.event_queue ++ [some (.start st.command_counter)])
              [some (.start st.command_counter)]).history⟩ := by
      rw [preLoop_append_ok pre (l :: rest) _ _ hpre]
      rw [preLoop_err_head l rest _ _ e hl]
    simp only [run_command, h1]

/-- Claim C1, counterexample.  The claim says a bad info line is a
contained DecodeError: the line is skipped and decoding continues.  On
the input lines `CINFO:99,0,"x"` (attribute id 99 is outside the
enumeration) and `TCOUT:2`, `run_command` instead aborts with the
`ValueError`: no TitleCount event for the following line is ever
produced (the queue holds only the Start event). -/
theorem claim1_counterexample :
    (run_command ⟨0, []⟩ (.ok (["CINFO:99,0,\"x\"", "TCOUT:2"], []))).1
        = .error (.decodeError .valueError)
    ∧ (run_command ⟨0, []⟩ (.ok (["CINFO:99,0,\"x\"", "TCOUT:2"], []))).2.event_queue
        = [some (.start 0)] := ⟨by decide, by decide⟩

/-- Witness for `claim1_theorem` at a concrete bad info line. -/
theorem claim1_witness :
    pyInt "99" = .ok 99 ∧ itemAttributeName 99 = none
    ∧ InfoEvent_init "99" "0" ["x"] = .error .valueError
    ∧ (preLoop [] ([] ++ [some (.start 0)]) [some (.start 0)]).err = none
    ∧ decodeLine "CINFO:99,0,x" = .error .valueError
    ∧ (run_command ⟨0, []⟩ (.ok ([] ++ "CINFO:99,0,x" :: ["TCOUT:2"], []))).1
        = .error (.decodeError .valueError) :=
  ⟨by decide, by decide,
    claim1_theorem.1 "99" "0" ["x"] 99 (by decide) (by decide),
    by decide, by decide,
    claim1_theorem.2 ⟨0, []⟩ [] ["TCOUT:2"] [] "CINFO:99,0,x" .valueError
      (by decide) (by decide)⟩


theorem preLoop_no_none (ls : List String) :
    ∀ (q h : List (Option Event)), (∀ x ∈ h, x ≠ none) →
      ∀ x ∈ (preLoop ls q h).history, x ≠ none := by
  induction ls with
  | nil => intro q h hh; simpa [preLoop] using hh
  | cons l ls ih =>
      intro q h hh
      cases hd : decodeLine l with
      | error e =>
          rw [preLoop_err_head l ls q h e hd]
          exact hh
      | ok item =>
          cases item with
          | none =>
              have h1 : preLoop (l :: ls) q h = preLoop ls q h := by
                simp only [preLoop, hd]
              rw [h1]
              exact ih q h hh
          | some ev =>
              have h1 : preLoop (l :: ls) q h
                  = preLoop ls (q ++ [some ev]) (h ++ [some ev]) := by
                simp only [preLoop, hd]
              rw [h1]
              refine ih (q ++ [some ev]) (h ++ [some ev]) ?_
              intro x hx
              rcases List.mem_append.mp hx with h1 | h2
              · exact hh x h1
              · simp at h2; simp [h2]

theorem postLoop_history_src (ls : List String) :
    ∀ (q h : List (Option Event)) (x : Option Event),
      x ∈ (postLoop ls q h).history →
      x ∈ h ∨ ∃ l ∈ ls, decodeLine l = .ok x := by
  induction ls with
  | nil => intro q h x hx; exact .inl (by simpa [postLoop] using hx)
  | cons l ls ih =>
      intro q h x hx
      cases hd : decodeLine l with
      | error e =>
          rw [show postLoop (l :: ls) q h = ⟨some e, q, h⟩ by
            simp only [postLoop, hd]] at hx
          exact .inl hx
      | ok item =>
          rw [show postLoop (l :: ls) q h = postLoop ls (q ++ [item]) (h ++ [item]) by
            simp only [postLoop, hd]] at hx
          rcases ih (q ++ [item]) (h ++ [item]) x hx with hin | ⟨l', hl', hdec⟩
          · rcases List.mem_append.mp hin with h1 | h2
            · exact .inl h1
            · simp at h2
              exact .inr ⟨l, List.mem_cons_self l ls, h2 ▸ hd⟩
          · exact .inr ⟨l', List.mem_cons_of_mem l hl', hdec⟩

/-- Claim C4, amended.  Every element the pre-exit read loop of
`run_command` pushes/appends is an actual decoded event — with no
drained output, a successful run's history contains no `None`.  But the
post-exit drain loop pushes and appends each drained line's raw decode
result unconditionally: an element of the history is `None` exactly when
it comes from a drained line that decoded to no event (blank or
whitespace-only). -/
theorem claim4_theorem :
    (∀ (st : SourceState) (pre : List String) (n : Nat) (hist : List (Option Event)),
        (run_command st (.ok (pre, []))).1 = .ok (n, hist) →
        ∀ x ∈ hist, x ≠ none)
  ∧ (∀ (drain : List String) (q h : List (Option Event)) (x : Option Event),
        x ∈ (postLoop drain q h).history →
        x ∈ h ∨ ∃ l ∈ drain, decodeLine l = .ok x) := by
  constructor
  · intro st pre n hist hrun x hx
    cases hP : preLoop pre (st.event_queue ++ [some (.start st.command_counter)])
        [some (.start st.command_counter)] with
    | mk err q1 h1 =>
        cases err with
        | some e => simp [run_command, hP] at hrun
        | none =>
            simp only [run_command, hP, postLoop, Except.ok.injEq, Prod.mk.injEq] at hrun
            obtain ⟨hn, hh⟩ := hrun
            subst hh
            rcases List.mem_append.mp hx with hx1 | hx2
            · refine preLoop_no_none pre
                  (st.event_queue ++ [some (.start st.command_counter)])
                  [some (.start st.command_counter)] ?_ x ?_
              · intro y hy; simp at hy; simp [hy]
              · rw [hP]; exact hx1
            · simp at hx2; simp [hx2]
  · exact postLoop_history_src

/-- Claim C4, counterexample.  The claim says drained lines are handled
like pre-exit lines, so no queue/history element is ever the no-event
result.  Draining the single blank buffered line `""` instead pushes
Python `None`: the history is `[Start, None, Stop]`. -/
theorem claim4_counterexample :
    (run_command ⟨0, []⟩ (.ok ([], [""]))).1
        = .ok (0, [some (.start 0), none, some (.stop 0)])
    ∧ none ∈ [some (Event.start 0), none, some (Event.stop 0)] :=
  ⟨by decide, by decide⟩

/-- Witness for `claim4_theorem`: a run with pre-exit line `TCOUT:2` and
no drained output has a `None`-free history, and the drained blank line
of the counterexample traces back to `decodeLine "" = ok none`. -/
theorem claim4_witness :
    ((run_command ⟨0, []⟩ (.ok (["TCOUT:2"], []))).1
        = .ok (0, [some (.start 0), some (.titleCount "2"), some (.stop 0)]))
    ∧ (∀ x ∈ [some (Event.start 0), some (Event.titleCount "2"), some (Event.stop 0)],
        x ≠ none)
    ∧ (none ∈ ([] : List (Option Event)) ∨ ∃ l ∈ [""], decodeLine l = .ok none) :=
  ⟨by decide,
    claim4_theorem.1 ⟨0, []⟩ ["TCOUT:2"] 0 _ (by decide),
    claim4_theorem.2 [""] [] [] none (by decide)⟩


theorem preLoop_queue_append (ls : List String) :
    ∀ (q h : List (Option Event)),
      ∃ add, (preLoop ls q h).queue = q ++ add
        ∧ ∀ x ∈ add, ∃ ev, x = some ev ∧ GoodEvent ev := by
  induction ls with
  | nil => intro q h; exact ⟨[], by simp [preLoop], by simp⟩
  | cons l ls ih =>
      intro q h
      cases hd : decodeLine l with
      | error e =>
          refine ⟨[], ?_, by simp⟩
          rw [preLoop_err_head l ls q h e hd]
          simp
      | ok item =>
          cases item with
          | none =>
              have h1 : preLoop (l :: ls) q h = preLoop ls q h := by
                simp only [preLoop, hd]
              rw [h1]; exact ih q h
          | some ev =>
              have h1 : preLoop (l :: ls) q h
                  = preLoop ls (q ++ [some ev]) (h ++ [some ev]) := by
                simp only [preLoop, hd]
              rw [h1]
              obtain ⟨add, ha, hg⟩ := ih (q ++ [some ev]) (h ++ [some ev])
              refine ⟨some ev :: add, by simp [ha], ?_⟩
              intro x hx
              rcases List.mem_cons.mp hx with h1 | h2
              · exact ⟨ev, h1, get_event_good _ _ hd⟩
              · exact hg x h2

theorem postLoop_queue_append (ls : List String) :
    ∀ (q h : List (Option Event)),
      ∃ add, (postLoop ls q h).queue = q ++ add
        ∧ ∀ x ∈ add, x = none ∨ ∃ ev, x = some ev ∧ GoodEvent ev := by
  induction ls with
  | nil => intro q h; exact ⟨[], by simp [postLoop], by simp⟩
  | cons l ls ih =>
      intro q h
      cases hd : decodeLine l with
      | error e =>
          refine ⟨[], ?_, by simp⟩
          rw [show postLoop (l :: ls) q h = ⟨some e, q, h⟩ by simp only [postLoop, hd]]
          simp
      | ok item =>
          rw [show postLoop (l :: ls) q h = postLoop ls (q ++ [item]) (h ++ [item]) by
            simp only [postLoop, hd]]
          obtain ⟨add, ha, hg⟩ := ih (q ++ [item]) (h ++ [item])
          refine ⟨item :: add, by simp [ha], ?_⟩
          intro x hx
          rcases List.mem_cons.mp hx with h1 | h2
          · subst h1
            cases hi : x with
            | none => exact .inl rfl
            | some ev => exact .inr ⟨ev, rfl, get_event_good _ _ (hi ▸ hd)⟩
          · exact hg x h2


theorem run_command_queue (st : SourceState) (spawn : SpawnResult) :
    ∃ add, (run_command st spawn).2.event_queue = st.event_queue ++ add
      ∧ (run_command st spawn).2.command_counter = st.command_counter + 1
      ∧ ∀ m, some (.stop m) ∈ add → m = st.command_counter := by
  cases spawn with
  | error u =>
      refine ⟨[some (.start st.command_counter)], by simp [run_command], by simp [run_command], ?_⟩
      intro m hm; simp at hm
  | ok pd =>
      obtain ⟨pre, drain⟩ := pd
      obtain ⟨add1, hq1, hgood1⟩ := preLoop_queue_append pre
        (st.event_queue ++ [some (.start st.command_counter)])
        [some (.start st.command_counter)]
      cases hP : preLoop pre (st.event_queue ++ [some (.start st.command_counter)])
          [some (.start st.command_counter)] with
      | mk err q1 h1 =>
          rw [hP] at hq1
          simp only at hq1
          cases err with
          | some e =>
              refine ⟨some (.start st.command_counter) :: add1, ?_, ?_, ?_⟩
              · simp only [run_command, hP]
                rw [hq1]; simp
              · simp only [run_command, hP]
              · intro m hm
                rcases List.mem_cons.mp hm with h1 | h2
                · simp at h1
                · obtain ⟨ev, hev, hgood⟩ := hgood1 _ h2
                  obtain ⟨-, hnostop, -⟩ := hgood
                  exact absurd (Option.some.inj hev).symm (hnostop m)
          | none =>
              obtain ⟨add2, hq2, hitems2⟩ := postLoop_queue_append drain q1 h1
              cases hQ : postLoop drain q1 h1 with
              | mk err2 q2 h2 =>
                  rw [hQ] at hq2
                  simp only at hq2
                  cases err2 with
                  | some e =>
                      refine ⟨some (.start st.command_counter) :: (add1 ++ add2), ?_, ?_, ?_⟩
                      · simp only [run_command, hP, hQ]
                        rw [hq2, hq1]; simp
                      · simp only [run_command, hP, hQ]
                      · intro m hm
                        rcases List.mem_cons.mp hm with h1 | h2
                        · simp at h1
                        · rcases List.mem_append.mp h2 with h3 | h4
                          · obtain ⟨ev, hev, hgood⟩ := hgood1 _ h3
                            obtain ⟨-, hnostop, -⟩ := hgood
                            exact absurd (Option.some.inj hev).symm (hnostop m)
                          · rcases hitems2 _ h4 with h5 | ⟨ev, hev, hgood⟩
                            · cases h5
                            · obtain ⟨-, hnostop, -⟩ := hgood
                              exact absurd (Option.some.inj hev).symm (hnostop m)
                  | none =>
                      refine ⟨some (.start st.command_counter) :: (add1 ++ add2)
                          ++ [some (.stop st.command_counter)], ?_, ?_, ?_⟩
                      · simp only [run_command, hP, hQ]
                        rw [hq2, hq1]; simp
                      · simp only [run_command, hP, hQ]
                      · intro m hm
                        rcases List.mem_append.mp hm with h2 | hstop
                        · rcases List.mem_cons.mp h2 with h1 | h2
                          · simp at h1
                          · rcases List.mem_append.mp h2 with h3 | h4
                            · obtain ⟨ev, hev, hgood⟩ := hgood1 _ h3
                              obtain ⟨-, hnostop, -⟩ := hgood
                              exact absurd (Option.some.inj hev).symm (hnostop m)
                            · rcases hitems2 _ h4 with h5 | ⟨ev, hev, hgood⟩
                              · cases h5
                              · obtain ⟨-, hnostop, -⟩ := hgood
                                exact absurd (Option.some.inj hev).symm (hnostop m)
                        · simp at hstop
                          exact hstop


/-- Claim C9.  When spawning the external tool fails, `run_command` is
not atomic: the spawn error propagates to the caller, but a Start event
for the newly allocated command number is already on the output queue
and the per-device command counter is already incremented; no Stop for
that command number is emitted by the failed call, every call increments
the counter by one, and any later call only ever appends Stop events
carrying its own (strictly larger) command number. -/
theorem claim9_theorem (st : SourceState) :
    (run_command st (.error ())).1 = .error .spawnFailure
  ∧ (run_command st (.error ())).2.event_queue
      = st.event_queue ++ [some (.start st.command_counter)]
  ∧ (run_command st (.error ())).2.command_counter = st.command_counter + 1
  ∧ (∀ m, some (Event.stop m) ∉ [some (Event.start st.command_counter)])
  ∧ (∀ spawn2, (run_command st spawn2).2.command_counter = st.command_counter + 1)
  ∧ (∀ (st2 : SourceState) (spawn2 : SpawnResult) (add2 : List (Option Event)) (m : Nat),
      (run_command st2 spawn2).2.event_queue = st2.event_queue ++ add2 →
      some (.stop m) ∈ add2 → m = st2.command_counter) := by
  refine ⟨by simp [run_command], by simp [run_command], by simp [run_command], ?_, ?_, ?_⟩
  · intro m hm; simp at hm
  · intro spawn2
    obtain ⟨add, -, hc, -⟩ := run_command_queue st spawn2
    exact hc
  · intro st2 spawn2 add2 m heq hmem
    obtain ⟨add, hq, -, hstop⟩ := run_command_queue st2 spawn2
    rw [heq] at hq
    have : add2 = add := List.append_cancel_left hq
    subst this
    exact hstop m hmem

/-- Witness for `claim9_theorem` at the initial state, including a later
successful run whose Stop carries its own number. -/
theorem claim9_witness :
    (run_command ⟨0, []⟩ (.error ())).1 = .error .spawnFailure
  ∧ (run_command ⟨0, []⟩ (.error ())).2.event_queue = [] ++ [some (.start 0)]
  ∧ (run_command ⟨0, []⟩ (.error ())).2.command_counter = 0 + 1
  ∧ ((run_command ⟨5, []⟩ (.ok ([], []))).2.event_queue
      = [] ++ [some (.start 5), some (.stop 5)] ∧ (5 : Nat) = 5) :=
  ⟨(claim9_theorem ⟨0, []⟩).1, (claim9_theorem ⟨0, []⟩).2.1, (claim9_theorem ⟨0, []⟩).2.2.1,
    by decide,
    (claim9_theorem ⟨0, []⟩).2.2.2.2.2 ⟨5, []⟩ (.ok ([], []))
      [some (.start 5), some (.stop 5)] 5 (by decide) (by decide)⟩


/-- Claim C3, counterexample.  The claim says that after the retry budget
is exhausted the next message is attempted with a fresh budget equal to
the configured maximum.  With `retries = 2`, queue `[1, 2, 3]` and every
attempt failing, message 1 is dropped after its two failures but message
2 is dropped after a single further failure (`dropped = [1, 2]`,
`remaining = -1` after only three failures): the counter was never reset
to 2 for message 2. -/
theorem claim3_counterexample :
    sendInit 2 [1, 2, 3] = some ⟨1, [2, 3], 2, [], [], 0⟩
    ∧ sendRun 2 [false, false, false] ⟨1, [2, 3], 2, [], [], 0⟩
        = (⟨3, [], -1, [], [1, 2], 3⟩ : PubState Nat) := ⟨by decide, by decide⟩

/-- Claim C3, amended.  For the publisher delivery worker `send_loop`:
a successful delivery appends the in-flight message to the delivered log
and resets the retry counter to the configured maximum; a failure with
more than one retry left decrements the counter and sleeps the fixed
backoff delay, keeping the same message; a failure that exhausts the
counter drops the in-flight message and pulls the next queued message,
but the counter is left at its decremented (exhausted) value — it is
not reset to the configured maximum.  The worker functions are total:
no crash, and blocking only on an empty queue `get`. -/
theorem claim3_theorem {μ : Type} (retries : Int) (st : PubState μ) :
    ((sendStep retries st true).1.remaining = retries
      ∧ (sendStep retries st true).1.delivered = st.delivered ++ [st.current]
      ∧ (sendStep retries st true).1.dropped = st.dropped)
  ∧ (1 < st.remaining →
      (sendStep retries st false).1
        = { st with remaining := st.remaining - 1, sleeps := st.sleeps + 1 }
      ∧ (sendStep retries st false).2 = true)
  ∧ (∀ (m : μ) (rest : List μ), st.remaining ≤ 1 → st.queue = m :: rest →
      (sendStep retries st false).1.current = m
      ∧ (sendStep retries st false).1.queue = rest
      ∧ (sendStep retries st false).1.dropped = st.dropped ++ [st.current]
      ∧ (sendStep retries st false).1.remaining = st.remaining - 1
      ∧ (sendStep retries st false).1.sleeps = st.sleeps + 1
      ∧ (sendStep retries st false).2 = true) := by
  refine ⟨?_, ?_, ?_⟩
  · unfold sendStep
    cases st.queue <;> simp
  · intro hr
    have h0 : ¬(st.remaining - 1 ≤ 0) := by omega
    unfold sendStep
    simp [h0]
  · intro m rest hr hq
    have h0 : st.remaining - 1 ≤ 0 := by omega
    unfold sendStep
    simp [hq, h0]

/-- Witness for `claim3_theorem` at concrete publisher states. -/
theorem claim3_witness :
    ((sendStep 2 (⟨1, [2, 3], 2, [], [], 0⟩ : PubState Nat) true).1.remaining = 2
      ∧ (sendStep 2 (⟨1, [2, 3], 2, [], [], 0⟩ : PubState Nat) true).1.delivered = [] ++ [1]
      ∧ (sendStep 2 (⟨1, [2, 3], 2, [], [], 0⟩ : PubState Nat) true).1.dropped = [])
  ∧ ((sendStep 2 (⟨1, [2, 3], 2, [], [], 0⟩ : PubState Nat) false).1
        = (⟨1, [2, 3], 1, [], [], 1⟩ : PubState Nat)
      ∧ (sendStep 2 (⟨1, [2, 3], 2, [], [], 0⟩ : PubState Nat) false).2 = true)
  ∧ ((sendStep 2 (⟨1, [2, 3], 0, [], [], 0⟩ : PubState Nat) false).1.current = 2
      ∧ (sendStep 2 (⟨1, [2, 3], 0, [], [], 0⟩ : PubState Nat) false).1.queue = [3]
      ∧ (sendStep 2 (⟨1, [2, 3], 0, [], [], 0⟩ : PubState Nat) false).1.dropped = [] ++ [1]
      ∧ (sendStep 2 (⟨1, [2, 3], 0, [], [], 0⟩ : PubState Nat) false).1.remaining = 0 - 1
      ∧ (sendStep 2 (⟨1, [2, 3], 0, [], [], 0⟩ : PubState Nat) false).1.sleeps = 0 + 1
      ∧ (sendStep 2 (⟨1, [2, 3], 0, [], [], 0⟩ : PubState Nat) false).2 = true) :=
  ⟨(claim3_theorem 2 ⟨1, [2, 3], 2, [], [], 0⟩).1,
    (claim3_theorem 2 ⟨1, [2, 3], 2, [], [], 0⟩).2.1 (by decide),
    (claim3_theorem 2 ⟨1, [2, 3], 0, [], [], 0⟩).2.2 2 [3] (by decide) (by decide)⟩


theorem dictGet_dictSet_self {α β : Type} [DecidableEq α] (d : PyDict α β) (k : α) (v : β) :
    dictGet (dictSet d k v) k = some v := by
  induction d with
  | nil => simp [dictSet, dictGet]
  | cons p rest ih =>
      obtain ⟨k', v'⟩ := p
      by_cases h : k' = k
      · subst h; simp [dictSet, dictGet]
      · simp [dictSet, dictGet, h, ih]

theorem dictGet_dictSet_ne {α β : Type} [DecidableEq α] (d : PyDict α β) (k k' : α) (v : β)
    (h : k' ≠ k) : dictGet (dictSet d k v) k' = dictGet d k' := by
  induction d with
  | nil => simp [dictSet, dictGet, Ne.symm h]
  | cons p rest ih =>
      obtain ⟨k'', v''⟩ := p
      by_cases h2 : k'' = k
      · subst h2
        simp [dictSet, dictGet, Ne.symm h]
      · by_cases h3 : k'' = k'
        · subst h3; simp [dictSet, dictGet, h2]
        · simp [dictSet, dictGet, h2, h3, ih]

theorem dictGet_dictSet_some {α β : Type} [DecidableEq α] (d : PyDict α β) (k k' : α) (v : β)
    (h : ∃ w, dictGet d k' = some w) : ∃ w, dictGet (dictSet d k v) k' = some w := by
  by_cases hk : k' = k
  · subst hk; exact ⟨v, dictGet_dictSet_self d k' v⟩
  · rw [dictGet_dictSet_ne d k k' v hk]; exact h

theorem dictGetD_of_get {α β : Type} [DecidableEq α] (d : PyDict α β) (k : α) (v dflt : β)
    (h : dictGet d k = some v) : dictGetD d k dflt = v := by
  unfold dictGetD; rw [h]; rfl

theorem dictGet_mem_keys {α β : Type} [DecidableEq α] (d : PyDict α β) (k : α) (v : β)
    (h : dictGet d k = some v) : k ∈ d.map Prod.fst := by
  induction d with
  | nil => simp [dictGet] at h
  | cons p rest ih =>
      obtain ⟨k', v'⟩ := p
      by_cases h2 : k' = k
      · subst h2; simp
      · simp [dictGet, h2] at h
        simp [ih h]

theorem foldl_preserve {α β : Type} (P : β → Prop) (f : β → α → β)
    (hstep : ∀ b a, P b → P (f b a)) :
    ∀ (l : List α) (b : β), P b → P (l.foldl f b) := by
  intro l
  induction l with
  | nil => intro b hb; exact hb
  | cons a l ih => intro b hb; exact ih (f b a) (hstep b a hb)

theorem foldl_establish {α β : Type} (P : β → Prop) (f : β → α → β) (e : α)
    (hstep : ∀ b a, P b → P (f b a)) (hintro : ∀ b, P (f b e)) :
    ∀ (l : List α) (b : β), e ∈ l → P (l.foldl f b) := by
  intro l
  induction l with
  | nil => intro b hb; simp at hb
  | cons a l ih =>
      intro b hb
      rcases List.mem_cons.mp hb with h1 | h2
      · subst h1
        exact foldl_preserve P f hstep l (f b e) (hintro b)
      · exact ih (f b a) h2


theorem historyStep_preserves_top (name : String) (acc : InfoAcc) (x : Option Event)
    (h : HasTop name acc) : HasTop name (historyStep acc x) := by
  unfold historyStep
  split
  · exact dictGet_dictSet_some _ _ _ _ h
  · exact h
  · exact h
  · exact h

theorem historyStep_preserves_title (t : Int) (name : String) (acc : InfoAcc)
    (x : Option Event) (h : HasTitle t name acc) :
    HasTitle t name (historyStep acc x) := by
  obtain ⟨ta, v, hta, hv⟩ := h
  unfold historyStep
  split
  · exact ⟨ta, v, hta, hv⟩
  · next t' d' =>
      by_cases he : t' = t
      · subst he
        rw [dictGetD_of_get _ _ _ _ hta]
        exact ⟨_, _, dictGet_dictSet_self _ _ _,
          (dictGet_dictSet_some _ _ _ _ ⟨v, hv⟩).choose_spec⟩
      · exact ⟨ta, v, by rw [dictGet_dictSet_ne _ _ _ _ (fun hh => he hh.symm)]; exact hta, hv⟩
  · next t' s' d' =>
      by_cases he : t' = t
      · subst he
        rw [dictGetD_of_get _ _ _ _ hta]
        exact ⟨_, v, dictGet_dictSet_self _ _ _, hv⟩
      · exact ⟨ta, v, by rw [dictGet_dictSet_ne _ _ _ _ (fun hh => he hh.symm)]; exact hta, hv⟩
  · exact ⟨ta, v, hta, hv⟩


theorem historyStep_preserves_stream (t s : Int) (name : String) (acc : InfoAcc)
    (x : Option Event) (h : HasStream t s name acc) :
    HasStream t s name (historyStep acc x) := by
  obtain ⟨ta, sd, v, hta, hsd, hv⟩ := h
  unfold historyStep
  split
  · exact ⟨ta, sd, v, hta, hsd, hv⟩
  · next t' d' =>
      by_cases he : t' = t
      · subst he
        rw [dictGetD_of_get _ _ _ _ hta]
        exact ⟨_, sd, v, dictGet_dictSet_self _ _ _, hsd, hv⟩
      · exact ⟨ta, sd, v,
          by rw [dictGet_dictSet_ne _ _ _ _ (fun hh => he hh.symm)]; exact hta, hsd, hv⟩
  · next t' s' d' =>
      by_cases he : t' = t
      · subst he
        rw [dictGetD_of_get _ _ _ _ hta]
        dsimp only
        by_cases hs : s' = s
        · subst hs
          rw [dictGetD_of_get _ _ _ _ hsd]
          exact ⟨_, _, _, dictGet_dictSet_self _ _ _, dictGet_dictSet_self _ _ _,
            (dictGet_dictSet_some _ _ _ _ ⟨v, hv⟩).choose_spec⟩
        · exact ⟨_, sd, v, dictGet_dictSet_self _ _ _,
            by rw [dictGet_dictSet_ne _ _ _ _ (fun hh => hs hh.symm)]; exact hsd, hv⟩
      · exact ⟨ta, sd, v,
          by rw [dictGet_dictSet_ne _ _ _ _ (fun hh => he hh.symm)]; exact hta, hsd, hv⟩
  · exact ⟨ta, sd, v, hta, hsd, hv⟩

theorem historyStep_intro_top (acc : InfoAcc) (d : InfoData) :
    HasTop d.item_name (historyStep acc (some (.discInfo d))) :=
  ⟨d.value, dictGet_dictSet_self _ _ _⟩

theorem historyStep_intro_title (acc : InfoAcc) (t : Int) (d : InfoData) :
    HasTitle t d.item_name (historyStep acc (some (.titleInfo t d))) :=
  ⟨_, d.value, dictGet_dictSet_self _ _ _, dictGet_dictSet_self _ _ _⟩

theorem historyStep_intro_stream (acc : InfoAcc) (t s : Int) (d : InfoData) :
    HasStream t s d.item_name (historyStep acc (some (.streamInfo t s d))) :=
  ⟨_, _, d.value, dictGet_dictSet_self _ _ _, dictGet_dictSet_self _ _ _,
    dictGet_dictSet_self _ _ _⟩

theorem aggregate_disc (hist : List (Option Event)) (d : InfoData)
    (h : some (Event.discInfo d) ∈ hist) : HasTop d.item_name (aggregate hist) :=
  foldl_establish _ historyStep _
    (fun b a => historyStep_preserves_top d.item_name b a)
    (fun b => historyStep_intro_top b d) hist ⟨[], []⟩ h

theorem aggregate_title (hist : List (Option Event)) (t : Int) (d : InfoData)
    (h : some (Event.titleInfo t d) ∈ hist) : HasTitle t d.item_name (aggregate hist) :=
  foldl_establish _ historyStep _
    (fun b a => historyStep_preserves_title t d.item_name b a)
    (fun b => historyStep_intro_title b t d) hist ⟨[], []⟩ h

theorem aggregate_stream (hist : List (Option Event)) (t s : Int) (d : InfoData)
    (h : some (Event.streamInfo t s d) ∈ hist) :
    HasStream t s d.item_name (aggregate hist) :=
  foldl_establish _ historyStep _
    (fun b a => historyStep_preserves_stream t s d.item_name b a)
    (fun b => historyStep_intro_stream b t s d) hist ⟨[], []⟩ h


/-- Claim C7.  `history_to_dict` aggregation: for every history in any
arrival order, the title keys (and each title's stream keys) are sorted
ascending and the output is the sorted-key image of the aggregation;
every DiscInfo attribute in the history appears at top level, every
TitleInfo attribute under its title (the output title at the position of
its index), and every StreamInfo attribute under its title's stream; in
particular the history DiscInfo(Name), TitleInfo(0, Name),
StreamInfo(0, 0, Name) yields top-level Name set, one title with Name
set and one stream with Name set, in every arrival order tried. -/
theorem claim7_theorem :
    (∀ hist : List (Option Event),
        (titleKeys (aggregate hist)).Sorted (· ≤ ·)
      ∧ (∀ ta : TitleAcc, (streamKeys ta).Sorted (· ≤ ·))
      ∧ (history_to_dict hist).attrs = (aggregate hist).attrs
      ∧ (history_to_dict hist).titles
          = (titleKeys (aggregate hist)).map
              (fun t => finalizeTitle (dictGetD (aggregate hist).titles t ⟨[], []⟩)))
  ∧ (∀ (hist : List (Option Event)) (d : InfoData),
        some (Event.discInfo d) ∈ hist →
        ∃ v, dictGet (history_to_dict hist).attrs d.item_name = some v)
  ∧ (∀ (hist : List (Option Event)) (t : Int) (d : InfoData),
        some (Event.titleInfo t d) ∈ hist →
        ∃ (i : Nat) (tout : TitleOut) (v : Value), (titleKeys (aggregate hist))[i]? = some t
          ∧ (history_to_dict hist).titles[i]? = some tout
          ∧ dictGet tout.attrs d.item_name = some v)
  ∧ (∀ (hist : List (Option Event)) (t s : Int) (d : InfoData),
        some (Event.streamInfo t s d) ∈ hist →
        ∃ (i : Nat) (tout : TitleOut) (j : Nat) (sd : AttrDict) (v : Value), (titleKeys (aggregate hist))[i]? = some t
          ∧ (history_to_dict hist).titles[i]? = some tout
          ∧ tout.streams[j]? = some sd
          ∧ (streamKeys (dictGetD (aggregate hist).titles t ⟨[], []⟩))[j]? = some s
          ∧ dictGet sd d.item_name = some v)
  ∧ (history_to_dict [discNameEv, titleNameEv, streamNameEv] = smallInfoOut
      ∧ history_to_dict [streamNameEv, titleNameEv, discNameEv] = smallInfoOut
      ∧ history_to_dict [titleNameEv, discNameEv, streamNameEv] = smallInfoOut
      ∧ get_event "CINFO:2,0,\"d\"" = .ok discNameEv
      ∧ get_event "TINFO:0,2,0,\"t\"" = .ok titleNameEv
      ∧ get_event "SINFO:0,0,2,0,\"s\"" = .ok streamNameEv) := by
  refine ⟨?_, ?_, ?_, ?_, by decide, by decide, by decide, by decide, by decide, by decide⟩
  · intro hist
    exact ⟨List.sorted_insertionSort _ _, fun ta => List.sorted_insertionSort _ _, rfl, rfl⟩
  · intro hist d h
    exact aggregate_disc hist d h
  · intro hist t d h
    obtain ⟨ta, v, hta, hv⟩ := aggregate_title hist t d h
    have hmem : t ∈ titleKeys (aggregate hist) := by
      unfold titleKeys
      rw [List.mem_insertionSort]
      exact dictGet_mem_keys _ _ _ hta
    obtain ⟨i, hi⟩ := List.mem_iff_getElem?.mp hmem
    refine ⟨i, finalizeTitle (dictGetD (aggregate hist).titles t ⟨[], []⟩), v, hi, ?_, ?_⟩
    · show (history_to_dict hist).titles[i]? = _
      unfold history_to_dict
      dsimp only
      rw [List.getElem?_map, hi]
      rfl
    · rw [dictGetD_of_get _ _ _ _ hta]
      exact hv
  · intro hist t s d h
    obtain ⟨ta, sd, v, hta, hsd, hv⟩ := aggregate_stream hist t s d h
    have hmem : t ∈ titleKeys (aggregate hist) := by
      unfold titleKeys
      rw [List.mem_insertionSort]
      exact dictGet_mem_keys _ _ _ hta
    obtain ⟨i, hi⟩ := List.mem_iff_getElem?.mp hmem
    have hsmem : s ∈ streamKeys (dictGetD (aggregate hist).titles t ⟨[], []⟩) := by
      rw [dictGetD_of_get _ _ _ _ hta]
      unfold streamKeys
      rw [List.mem_insertionSort]
      exact dictGet_mem_keys _ _ _ hsd
    obtain ⟨j, hj⟩ := List.mem_iff_getElem?.mp hsmem
    refine ⟨i, finalizeTitle (dictGetD (aggregate hist).titles t ⟨[], []⟩), j, sd, v,
      hi, ?_, ?_, hj, hv⟩
    · show (history_to_dict hist).titles[i]? = _
      unfold history_to_dict
      dsimp only
      rw [List.getElem?_map, hi]
      rfl
    · show (finalizeTitle (dictGetD (aggregate hist).titles t ⟨[], []⟩)).streams[j]? = _
      unfold finalizeTitle
      rw [List.getElem?_map]
      rw [dictGetD_of_get _ _ _ _ hta] at hj ⊢
      rw [hj]
      show some (dictGetD ta.streams s []) = some sd
      rw [dictGetD_of_get _ _ _ _ hsd]


/-- Witness for `claim7_theorem` at the three-event example history. -/
theorem claim7_witness :
    (∃ v, dictGet (history_to_dict [discNameEv, titleNameEv, streamNameEv]).attrs
        "Name" = some v)
  ∧ (∃ (i : Nat) (tout : TitleOut) (v : Value),
        (titleKeys (aggregate [discNameEv, titleNameEv, streamNameEv]))[i]? = some 0
        ∧ (history_to_dict [discNameEv, titleNameEv, streamNameEv]).titles[i]? = some tout
        ∧ dictGet tout.attrs "Name" = some v)
  ∧ (∃ (i : Nat) (tout : TitleOut) (j : Nat) (sd : AttrDict) (v : Value),
        (titleKeys (aggregate [discNameEv, titleNameEv, streamNameEv]))[i]? = some 0
        ∧ (history_to_dict [discNameEv, titleNameEv, streamNameEv]).titles[i]? = some tout
        ∧ tout.streams[j]? = some sd
        ∧ (streamKeys (dictGetD (aggregate [discNameEv, titleNameEv, streamNameEv]).titles
            0 ⟨[], []⟩))[j]? = some 0
        ∧ dictGet sd "Name" = some v) :=
  ⟨claim7_theorem.2.1 [discNameEv, titleNameEv, streamNameEv]
      ⟨2, "Name", 0, ["d"], "d", .strV "d"⟩ (by decide),
    claim7_theorem.2.2.1 [discNameEv, titleNameEv, streamNameEv] 0
      ⟨2, "Name", 0, ["t"], "t", .strV "t"⟩ (by decide),
    claim7_theorem.2.2.2.1 [discNameEv, titleNameEv, streamNameEv] 0 0
      ⟨2, "Name", 0, ["s"], "s", .strV "s"⟩ (by decide)⟩

end Djmkv
